import Mathlib

/-!
Verification of the `json-conditions` rule engine (`src/index.js`).

The engine is embedded shallowly:

* JavaScript values are modelled by `JSValue`.  Numbers are modelled as
  integers (`Int`); the claims under verification only involve integral
  numbers, so IEEE-754 specifics (NaN, non-integral literals, hex parsing)
  are out of scope and `strToNum` reports non-integral numerals as `none`
  (the embedding of NaN).
* JavaScript objects and arrays are modelled structurally (there is no
  heap in the embedding, hence no reference identity).
* Thrown exceptions are modelled with `Except JSError`; a `JSError`
  carries the error's `name`, `message` and the `rule` field the source
  attaches to authoring errors.
* The trace string that the source delivers to `settings.log` is returned
  alongside the outcome.
-/

namespace JsonConditions

/-- A JavaScript value (numbers modelled as integers, see the header). -/
inductive JSValue where
  | null
  | undefined
  | bool (b : Bool)
  | num (n : Int)
  | str (s : String)
  | arr (xs : List JSValue)
  | obj (fields : List (String × JSValue))
deriving Repr, Inhabited

/-- A rule, per the data model: `{ property, op, value, required }`. -/
structure Rule where
  property : String
  op : String
  value : JSValue
  required : Bool
deriving Repr, Inhabited

/-- A thrown JavaScript error: its class name, message, and the `rule`
field the source attaches to authoring errors (`error.rule = rule`). -/
structure JSError where
  name : String
  message : String
  rule : Option Rule
deriving Repr, Inhabited

/-- `value == null` / `typeof value === "undefined"` style nullishness. -/
def jsNullish : JSValue → Bool
  | .null => true
  | .undefined => true
  | _ => false

/-- JavaScript `ToBoolean` (truthiness). -/
def truthy : JSValue → Bool
  | .null => false
  | .undefined => false
  | .bool b => b
  | .num n => n != 0
  | .str s => s != ""
  | .arr _ => true
  | .obj _ => true

mutual

/-- Strict equality `===` on values.  JavaScript compares arrays and
objects by reference; the heap-free embedding compares them structurally. -/
def jsStrictEq : JSValue → JSValue → Bool
  | .null, .null => true
  | .undefined, .undefined => true
  | .bool a, .bool b => a == b
  | .num a, .num b => a == b
  | .str a, .str b => a == b
  | .arr xs, .arr ys => jsStrictEqList xs ys
  | .obj fs, .obj gs => jsStrictEqFields fs gs
  | _, _ => false

def jsStrictEqList : List JSValue → List JSValue → Bool
  | [], [] => true
  | x :: xs, y :: ys => jsStrictEq x y && jsStrictEqList xs ys
  | _, _ => false

def jsStrictEqFields : List (String × JSValue) → List (String × JSValue) → Bool
  | [], [] => true
  | (k, v) :: fs, (l, w) :: gs => k == l && jsStrictEq v w && jsStrictEqFields fs gs
  | _, _ => false

end

/-- ASCII lower-casing of one character (`String.prototype.toLowerCase`
restricted to ASCII, which is all the engine compares against). -/
def charToLower (c : Char) : Char :=
  if 'A' ≤ c ∧ c ≤ 'Z' then Char.ofNat (c.toNat + 32) else c

/-- `s.toLowerCase()` (ASCII). -/
def strToLower (s : String) : String := ⟨s.data.map charToLower⟩

/-- `s.trim()`: strip leading and trailing whitespace. -/
def strTrim (s : String) : String :=
  ⟨((s.data.dropWhile Char.isWhitespace).reverse.dropWhile Char.isWhitespace).reverse⟩

/-- `s.startsWith(pre)`. -/
def strStartsWith (s pre : String) : Bool := pre.data.isPrefixOf s.data

/-- `s.endsWith(post)`. -/
def strEndsWith (s post : String) : Bool := post.data.reverse.isPrefixOf s.data.reverse

/-- `s.substring(1)`: drop the first character (empty stays empty). -/
def strDropOne (s : String) : String := ⟨s.data.drop 1⟩

/-- Digits of a decimal numeral folded into a natural number. -/
def digitsToNat (l : List Char) : Nat :=
  l.foldl (fun n c => n * 10 + (c.toNat - '0'.toNat)) 0

/-- JavaScript `ToNumber` on a string, in the integer number model:
whitespace is trimmed, the empty string is `0`, an optionally signed
run of decimal digits is that integer, and anything else is NaN
(`none`); non-integral numerals are out of the model's scope. -/
def strToNum (s : String) : Option Int :=
  let t := strTrim s
  if t = "" then some 0
  else
    let (sign, digits) :=
      match t.data with
      | '-' :: rest => ((-1 : Int), rest)
      | '+' :: rest => ((1 : Int), rest)
      | l => ((1 : Int), l)
    if digits ≠ [] ∧ digits.all Char.isDigit then some (sign * (digitsToNat digits : Int))
    else none

/-- A canonical array index: a string of decimal digits without a
redundant leading zero, as used by JavaScript array element access. -/
def parseArrayIndex (k : String) : Option Nat :=
  match k.data with
  | [] => none
  | l =>
    if l.all Char.isDigit ∧ (l.head? ≠ some '0' ∨ l = ['0']) then some (digitsToNat l)
    else none

mutual

/-- JavaScript `ToString` of a value: `null` → `"null"`, `undefined` →
`"undefined"`, booleans and integers in their literal form, arrays as the
comma-join of their elements (nullish elements joining as the empty
string, per `Array.prototype.join`), plain objects as
`"[object Object]"`. -/
def jsCoerceString : JSValue → String
  | .null => "null"
  | .undefined => "undefined"
  | .bool b => if b then "true" else "false"
  | .num n => toString n
  | .str s => s
  | .arr xs => jsCoerceStringList xs
  | .obj _ => "[object Object]"

def jsCoerceStringList : List JSValue → String
  | [] => ""
  | [x] => if jsNullish x then "" else jsCoerceString x
  | x :: rest => (if jsNullish x then "" else jsCoerceString x) ++ "," ++ jsCoerceStringList rest

end

/-- `ToPrimitive` with default hint: arrays and plain objects convert to
their string form, primitives are returned unchanged. -/
def toPrimStr : JSValue → JSValue
  | .arr xs => .str (jsCoerceString (.arr xs))
  | .obj fs => .str (jsCoerceString (.obj fs))
  | v => v

/-- `ToNumber` of a primitive value (`none` models NaN). -/
def toNumLoose : JSValue → Option Int
  | .null => some 0
  | .undefined => none
  | .bool b => some (if b then 1 else 0)
  | .num n => some n
  | .str s => strToNum s
  | _ => none

/-- Loose equality `==` (ECMA abstract equality).  The two sides are first
reduced to primitives when one side is a primitive (arrays and objects
convert via `toPrimStr`); two object-like values compare per
`jsStrictEq` (structurally, see that definition's note).  Nullish values
equal only each other; same-type primitives compare directly; mixed
primitives compare through `ToNumber`. -/
def looseEq (x y : JSValue) : Bool :=
  match x, y with
  | .arr xs, .arr ys => jsStrictEq (.arr xs) (.arr ys)
  | .obj fs, .obj gs => jsStrictEq (.obj fs) (.obj gs)
  | .arr xs, .obj gs => jsStrictEq (.arr xs) (.obj gs)
  | .obj fs, .arr ys => jsStrictEq (.obj fs) (.arr ys)
  | x, y =>
    let px := toPrimStr x
    let py := toPrimStr y
    match px, py with
    | .null, .null => true
    | .null, .undefined => true
    | .undefined, .null => true
    | .undefined, .undefined => true
    | .null, _ => false
    | .undefined, _ => false
    | _, .null => false
    | _, .undefined => false
    | .str a, .str b => a == b
    | a, b =>
      match toNumLoose a, toNumLoose b with
      | some m, some n => m == n
      | _, _ => false

/-- Abstract relational comparison `x < y`: both sides to primitives; two
strings compare lexicographically, otherwise numerically through
`ToNumber`, with NaN making the comparison false. -/
def jsLt (x y : JSValue) : Bool :=
  match toPrimStr x, toPrimStr y with
  | .str a, .str b => a < b
  | px, py =>
    match toNumLoose px, toNumLoose py with
    | some m, some n => m < n
    | _, _ => false

/-- `x <= y`: like `jsLt` with a non-strict comparison (NaN → false). -/
def jsLe (x y : JSValue) : Bool :=
  match toPrimStr x, toPrimStr y with
  | .str a, .str b => a ≤ b
  | px, py =>
    match toNumLoose px, toNumLoose py with
    | some m, some n => m ≤ n
    | _, _ => false

/-- `x > y`. -/
def jsGt (x y : JSValue) : Bool := jsLt y x

/-- `x >= y`. -/
def jsGe (x y : JSValue) : Bool := jsLe y x

/-! ### Generic string helpers (JS `String.prototype` methods) -/

/-- Does `sub` occur as a contiguous run inside `l`?  (`String.prototype.includes`
on the underlying character lists; the empty list occurs everywhere.) -/
def listContainsSub : List Char → List Char → Bool
  | l, sub =>
    sub.isPrefixOf l ||
      match l with
      | [] => false
      | _ :: rest => listContainsSub rest sub

/-- `s.includes(sub)`. -/
def strIncludes (s sub : String) : Bool := listContainsSub s.data sub.data

/-- Worker for `jsSplit`; `fuel` bounds the recursion (one unit per
consumed character). -/
def jsSplitAux : Nat → List Char → List Char → List Char → List String → List String
  | 0, _, _, cur, acc => acc ++ [cur.asString]
  | Nat.succ fuel, l, sep, cur, acc =>
    match l with
    | [] => acc ++ [cur.asString]
    | c :: rest =>
      if sep ≠ [] ∧ sep.isPrefixOf l then
        jsSplitAux fuel (l.drop sep.length) sep [] (acc ++ [cur.asString])
      else jsSplitAux fuel rest sep (cur ++ [c]) acc

/-- `s.split(sep)` for a non-empty plain-string separator (the source only
splits on `"[]"`): scan left to right, breaking at each non-overlapping
occurrence of `sep`; separators at the ends contribute empty fields. -/
def jsSplit (s sep : String) : List String :=
  jsSplitAux (s.length + 1) s.data sep.data [] []



/-! ### Path resolver (`stringToPath`, `castPath`, `baseGet`, `get`)

`stringToPath` is the repeated application of the source's `rePropName`
regular expression

    [^.[\]]+                                  -- a run of non-separator chars
  | \[(?:([^"'][^[]*)|(["'])((?:(?!\2)[^\\]|\\.)*?)\2)\]   -- a bracket group
  | (?=(?:\.|\[\])(?:\.|\[\]|$))              -- empty segment between separators

transcribed as a character-level scanner with the same leftmost-match
semantics (the memoization wrapper `memoizeCapped` caches results without
changing them and is not modelled). -/

/-- Is `c` one of the path separator characters `.`/`[`/`]`? -/
def isPathSep (c : Char) : Bool := c = '.' || c = '[' || c = ']'

/-- Second half of the empty-segment lookahead: the remaining input starts
with `.`, with `[]`, or is exhausted. -/
def sepNext : List Char → Bool
  | [] => true
  | '.' :: _ => true
  | '[' :: ']' :: _ => true
  | _ => false

/-- The lookahead `(?=(?:\.|\[\])(?:\.|\[\]|$))` of `rePropName`: an empty
segment is emitted between two consecutive separators. -/
def emptySegAhead : List Char → Bool
  | '.' :: rest => sepNext rest
  | '[' :: ']' :: rest => sepNext rest
  | _ => false

/-- Scan a quoted bracket body for its closing quote `q`.  Content
characters are either a backslash-escape pair or a single character other
than `q`; returns the raw content (escapes intact) and the input after
the closing quote.  This matches `(["'])((?:(?!\2)[^\\]|\\.)*?)\2`:
because an unescaped `q` cannot be content, the first unescaped `q`
is the only possible closing quote. -/
def scanQuoted (q : Char) : List Char → Option (List Char × List Char)
  | [] => none
  | '\\' :: c :: rest =>
    (scanQuoted q rest).map (fun p => ('\\' :: c :: p.1, p.2))
  | ['\\'] => none
  | c :: rest =>
    if c = q then some ([], rest)
    else (scanQuoted q rest).map (fun p => (c :: p.1, p.2))

/-- The source's `reEscapeChar` replacement `\\(\\)?` → `$1`: a doubled
backslash collapses to one, a single backslash is dropped. -/
def unescape : List Char → List Char
  | '\\' :: '\\' :: rest => '\\' :: unescape rest
  | '\\' :: rest => unescape rest
  | c :: rest => c :: unescape rest
  | [] => []

/-- Greedy match of `[^[]*\]` : within the prefix of `l` that contains no
`[`, locate the last `]`; return the content before it and the input
after it. -/
def lastBracketSplit (l : List Char) : Option (List Char × List Char) :=
  let pre := l.takeWhile (fun c => c ≠ '[')
  let rest := l.drop pre.length
  let rev := pre.reverse.dropWhile (fun c => c ≠ ']')
  match rev with
  | [] => none
  | _ :: revContent =>
    let tailAfter := (pre.reverse.takeWhile (fun c => c ≠ ']')).reverse
    some (revContent.reverse, tailAfter ++ rest)

/-- One pass of the `rePropName` scan: at each position try, in the
regex's alternation order, a separator-free run, a bracket group
(expression form first, quoted form when the bracket opens with a
quote), then the empty-segment lookahead; otherwise skip one character
(an unmatched separator). -/
def stringToPathAux : Nat → List Char → List String → List String
  | 0, _, acc => acc
  | _, [], acc => acc
  | Nat.succ fuel, l@(c :: rest), acc =>
    if ¬ isPathSep c then
      let run := l.takeWhile (fun ch => ¬ isPathSep ch)
      stringToPathAux fuel (l.drop run.length) (acc ++ [run.asString])
    else if c = '[' then
      match rest with
      | q :: rest2 =>
        if q = '"' ∨ q = '\'' then
          match scanQuoted q rest2 with
          | some (content, ']' :: rem) =>
            stringToPathAux fuel rem (acc ++ [(unescape content).asString])
          | _ =>
            if emptySegAhead l then stringToPathAux fuel rest (acc ++ [""])
            else stringToPathAux fuel rest acc
        else
          match lastBracketSplit rest2 with
          | some (content, rem) =>
            stringToPathAux fuel rem (acc ++ [strTrim (q :: content).asString])
          | none =>
            if emptySegAhead l then stringToPathAux fuel rest (acc ++ [""])
            else stringToPathAux fuel rest acc
      | [] =>
        if emptySegAhead l then stringToPathAux fuel rest (acc ++ [""])
        else stringToPathAux fuel rest acc
    else
      if emptySegAhead l then stringToPathAux fuel rest (acc ++ [""])
      else stringToPathAux fuel rest acc

/-- `stringToPath`: a leading dot contributes an initial empty segment,
then the scan of `rePropName` produces one key per match. -/
def stringToPath (s : String) : List String :=
  let l := s.data
  let init := if l.head? = some '.' then [""] else []
  stringToPathAux (l.length + 1) l init

/-- JavaScript `\w` (ASCII word character). -/
def isWordChar (c : Char) : Bool := c.isAlphanum || c = '_'

/-- `reIsPlainProp = /^\w*$/`. -/
def reIsPlainPropTest (s : String) : Bool := s.data.all isWordChar

/-- Does a bracket alternative of `reIsDeepProp` match right after a `[`:
either `[^[\]]*\]` (a bracket-free body closed by `]`) or a quoted body
closed by its quote and `]`. -/
def bracketGroupAt (l : List Char) : Bool :=
  (let run := l.takeWhile (fun c => c ≠ '[' && c ≠ ']')
   match l.drop run.length with
   | ']' :: _ => true
   | _ => false) ||
  (match l with
   | q :: rest =>
     if q = '"' ∨ q = '\'' then
       match scanQuoted q rest with
       | some (_, ']' :: _) => true
       | _ => false
     else false
   | [] => false)

/-- `reIsDeepProp.test`: the string contains a dot or a bracket group. -/
def reIsDeepPropTest : List Char → Bool
  | [] => false
  | '.' :: _ => true
  | '[' :: rest => bracketGroupAt rest || reIsDeepPropTest rest
  | _ :: rest => reIsDeepPropTest rest

/-- Membership test `key in Object(object)` restricted to the shapes the
embedding supports: an object's own keys; an array's valid indices and
`length`; a string's character indices and `length`. -/
def inKeys : JSValue → String → Bool
  | .obj fields, k => fields.any (fun f => f.1 = k)
  | .arr xs, k =>
    k = "length" ||
      match parseArrayIndex k with
      | some i => i < xs.length
      | none => false
  | .str s, k =>
    k = "length" ||
      match parseArrayIndex k with
      | some i => i < s.length
      | none => false
  | _, _ => false

/-- `isKey(value, object)` for a string `value`: a plain word, or a string
with no path syntax, or a literal key present on `object`. -/
def isKey (s : String) (object : JSValue) : Bool :=
  reIsPlainPropTest s || !(reIsDeepPropTest s.data) ||
    (!(jsNullish object) && inKeys object s)

/-- A path expression: a pre-split ordered sequence of keys (used
verbatim) or a string to normalize. -/
inductive PathExpr where
  | ofList (keys : List JSValue)
  | ofStr (s : String)
deriving Repr

/-- `castPath(value, object)`: arrays verbatim; a string that `isKey`
accepts becomes a one-key path; otherwise tokenize with `stringToPath`. -/
def castPath (p : PathExpr) (object : JSValue) : List JSValue :=
  match p with
  | .ofList keys => keys
  | .ofStr s => if isKey s object then [.str s] else (stringToPath s).map .str

/-- `toKey`: strings pass through, anything else via `ToString`. -/
def toKey : JSValue → String
  | .str s => s
  | v => jsCoerceString v

/-- Property read `o[k]` (a pure read; member access never modifies the
receiver): object field, array element or `length`, string character or
`length`; anything else resolves to `undefined`. -/
def jsIndex : JSValue → String → JSValue
  | .obj fields, k => (fields.lookup k).getD .undefined
  | .arr xs, k =>
    if k = "length" then .num xs.length
    else
      match parseArrayIndex k with
      | some i => xs.getD i .undefined
      | none => .undefined
  | .str s, k =>
    if k = "length" then .num s.length
    else
      match parseArrayIndex k with
      | some i =>
        match s.data.get? i with
        | some c => .str (String.singleton c)
        | none => .undefined
      | none => .undefined
  | _, _ => .undefined

/-- The `while` loop of `baseGet` with its `index`/`length` counters and
the final `(index && index == length) ? object : undefined` check. -/
def baseGetAux : JSValue → List JSValue → Nat → Nat → JSValue
  | o, [], i, len => if i != 0 && i == len then o else .undefined
  | o, k :: ks, i, len =>
    if jsNullish o then (if i != 0 && i == len then o else .undefined)
    else baseGetAux (jsIndex o (toKey k)) ks (i + 1) len

/-- `baseGet(object, path)`. -/
def baseGet (object : JSValue) (p : PathExpr) : JSValue :=
  let keys := castPath p object
  baseGetAux object keys 0 keys.length

/-- `get(object, path)` (no default value is ever supplied by the
engine): `undefined` on a nullish root, otherwise `baseGet`. -/
def get (object : JSValue) (p : PathExpr) : JSValue :=
  if jsNullish object then .undefined else baseGet object p

/-! ### The module's `toString` helper

`null`/`undefined` stringify to `""`; strings pass through; arrays
recursively convert their elements (nullish elements are kept and later
join as `""` under the template literal's `Array.prototype.join`);
anything else takes its default textual form. -/

mutual

def moduleToString : JSValue → String
  | .null => ""
  | .undefined => ""
  | .str s => s
  | .arr xs => moduleToStringList xs
  | v => jsCoerceString v

def moduleToStringList : List JSValue → String
  | [] => ""
  | [x] => if jsNullish x then "" else moduleToString x
  | x :: rest =>
    (if jsNullish x then "" else moduleToString x) ++ "," ++ moduleToStringList rest

end

/-! ### Rule evaluator (`checkConditions`) -/

/-- The settings object.  `rules = none` models `settings.rules` not being
an array; `satisfy`, the two callbacks and the log sink are optional as
in the source.  The callbacks are modelled as pure functions, which is
the spec's contract for them. -/
structure Settings where
  rules : Option (List Rule)
  satisfy : Option String
  transformValueFn : Option (JSValue → JSValue → String → JSValue)
  previousValueFn : Option (JSValue → String → JSValue)
  hasLog : Bool

/-- The result of `checkConditions`: `null` when no rule set is
configured, otherwise the boolean outcome together with the trace string
the source would deliver to `settings.log`. -/
inductive CheckResult where
  | null
  | outcome (b : Bool) (trace : String)
deriving Repr

/-- `new Error("Property not specified for rule " + index)` with
`error.rule = rule`. -/
def propertyError (index : Nat) (rule : Rule) : JSError :=
  { name := "Error"
    message := "Property not specified for rule " ++ toString index
    rule := some rule }

/-- `new Error("Unknown comparison for rule (" + op + ")")` with
`error.rule = rule`; note the message carries the op, not the index. -/
def unknownOpError (rule : Rule) : JSError :=
  { name := "Error"
    message := "Unknown comparison for rule (" ++ rule.op ++ ")"
    rule := some rule }

/-- The `crosses` configuration error. -/
def crossesConfigError : JSError :=
  { name := "Error"
    message := "Comparison \"crosses\" selected, but no function supplied to return previous value"
    rule := none }

/-- The `TypeError` raised by `get(reference, topPath).map(...)` when the
collection path does not resolve to an array (message text is
engine-specific and modelled canonically). -/
def mapTypeError : JSError :=
  { name := "TypeError", message := "value.map is not a function", rule := none }

/-- The `TypeError` that `nestedPath.substring` would raise were the
split to yield no second component (unreachable: the property contains
`"[]"` whenever this code runs). -/
def substringTypeError : JSError :=
  { name := "TypeError", message := "nestedPath.substring is not a function", rule := none }

/-- Lines 230–237: resolve the rule's property against the reference,
with the array-wildcard expansion when the property contains `"[]"`:
split at the marker, strip the sub-path's leading separator, re-resolve
the collection and map the sub-path over its items.  `.map` exists only
on arrays, so a collection that is not an array raises a `TypeError`. -/
def resolveRuleValue (reference : JSValue) (property : String) : Except JSError JSValue :=
  let value := get reference (.ofStr property)
  if strIncludes property "[]" then
    match jsSplit property "[]" with
    | topPath :: nestedPath0 :: _ =>
      let nestedPath := strDropOne nestedPath0
      match get reference (.ofStr topPath) with
      | .arr items =>
        .ok (.arr (items.map (fun item =>
          if nestedPath ≠ "" then get item (.ofStr nestedPath) else item)))
      | _ => .error mapTypeError
    | _ => .error substringTypeError
  else .ok value

/-- Lines 239–246: the comparison operand, through `transformValueFn`
when one is supplied. -/
def targetValueOf (settings : Settings) (reference : JSValue) (rule : Rule) : JSValue :=
  match settings.transformValueFn with
  | some f => f rule.value reference rule.property
  | none => rule.value

/-- Lines 247–254: the boolean/string alternate reading, computed when
the resolved value is a boolean and the target a string equal
(case-insensitively) to `"false"` or `"true"`. -/
def altComparisonOf (value targetValue : JSValue) : Option Bool :=
  match value, targetValue with
  | .bool _, .str s =>
    if strToLower s = "false" then some false
    else if strToLower s = "true" then some true
    else none
  | _, _ => none

/-- `true`/`false` as a template literal renders a boolean. -/
def boolText (b : Bool) : String := if b then "true" else "false"

/-- Lines 337–339: the per-rule trace line.  The unary operators
`absent`/`present` render with `is` and without the comparison value. -/
def ruleTraceLine (index : Nat) (rule : Rule) (value targetValue : JSValue) (result : Bool) : String :=
  let unary := rule.op = "absent" || rule.op = "present"
  let vs := jsCoerceString value
  let xs := if unary then "is" else ""
  let ys := if unary then "" else jsCoerceString targetValue
  let rs := boolText result
  let p := rule.property
  let op := rule.op
  s!"({index}) {p} ({vs}) {xs} {op} {ys}? {rs}\n"

/-- Line 325: the dedicated `crosses` trace line.  NOTE: the source
assigns (`debugStr = ...`) instead of appending, discarding the trace
accumulated so far; the transcription preserves that. -/
def crossesTraceLine (index : Nat) (rule : Rule) (lastValue value targetValue : JSValue) (result : Bool) : String :=
  let ls := jsCoerceString lastValue
  let vs := jsCoerceString value
  let ts := jsCoerceString targetValue
  let rs := boolText result
  let p := rule.property
  s!"({index}) {p} was {ls} and became {vs}. crossed {ts}? {rs}\n"

/-- The `switch (rule.op)` dispatch (lines 256–331), transcribed as an
if-chain in case order.  Returns the rule's boolean together with the
(possibly rewritten, see `crosses`) trace accumulator; an unrecognized
op raises the authoring error. -/
def applyOp (settings : Settings) (reference : JSValue) (index : Nat) (rule : Rule)
    (value targetValue : JSValue) (alt : Option Bool) (debugStr : String) :
    Except JSError (Bool × String) :=
  if rule.op = "eq" then
    let r := looseEq value targetValue
    let r := match alt with
      | some a => r || looseEq value (.bool a)
      | none => r
    .ok (r, debugStr)
  else if rule.op = "ne" ∨ rule.op = "neq" then
    let r := !(looseEq value targetValue)
    let r := match alt with
      | some a => r && !(looseEq value (.bool a))
      | none => r
    .ok (r, debugStr)
  else if rule.op = "gt" then .ok (jsGt value targetValue, debugStr)
  else if rule.op = "gte" then .ok (jsGe value targetValue, debugStr)
  else if rule.op = "lt" then .ok (jsLt value targetValue, debugStr)
  else if rule.op = "lte" then .ok (jsLe value targetValue, debugStr)
  else if rule.op = "startsWith" then
    .ok (strStartsWith (moduleToString value) (jsCoerceString targetValue), debugStr)
  else if rule.op = "endsWith" then
    .ok (strEndsWith (moduleToString value) (jsCoerceString targetValue), debugStr)
  else if rule.op = "contains" then
    .ok (strIncludes (moduleToString value) (jsCoerceString targetValue), debugStr)
  else if rule.op = "present" then .ok (truthy value, debugStr)
  else if rule.op = "empty" ∨ rule.op = "absent" then .ok (!(truthy value), debugStr)
  else if rule.op = "all" then
    -- Array.isArray(value) && !value.find((v) => v !== targetValue)
    let r := match value with
      | .arr xs =>
        !(truthy ((xs.find? (fun v => !(jsStrictEq v targetValue))).getD .undefined))
      | _ => false
    .ok (r, debugStr)
  else if rule.op = "some" then
    -- Array.isArray(value) && value.includes(targetValue)
    let r := match value with
      | .arr xs => xs.any (fun v => jsStrictEq v targetValue)
      | _ => false
    .ok (r, debugStr)
  else if rule.op = "none" then
    -- (Array.isArray(value) || value === null || typeof value === "undefined")
    --   && !(value || []).includes(targetValue)
    let isArrOrNullish := match value with
      | .arr _ => true
      | .null => true
      | .undefined => true
      | _ => false
    let r :=
      if isArrOrNullish then
        let fallback := if truthy value then value else .arr []
        !(match fallback with
          | .arr xs => xs.any (fun v => jsStrictEq v targetValue)
          | _ => false)
      else false
    .ok (r, debugStr)
  else if rule.op = "crosses" then
    match settings.previousValueFn with
    | none => .error crossesConfigError
    | some f =>
      let lastValue := f reference rule.property
      let r := jsGt targetValue lastValue && jsLe targetValue value
      .ok (r, crossesTraceLine index rule lastValue value targetValue r)
  else .error (unknownOpError rule)

/-- Evaluation of one rule (the body of the `.map` callback, lines
223–342): reject an empty property, resolve the value, compute the
target and the alternate reading, dispatch on the op, and append the
per-rule trace line. -/
def evalRule (settings : Settings) (reference : JSValue) (index : Nat) (rule : Rule)
    (debugStr : String) : Except JSError (Bool × String) :=
  if rule.property = "" then .error (propertyError index rule)
  else
    match resolveRuleValue reference rule.property with
    | .error e => .error e
    | .ok value =>
      let targetValue := targetValueOf settings reference rule
      let alt := altComparisonOf value targetValue
      match applyOp settings reference index rule value targetValue alt debugStr with
      | .error e => .error e
      | .ok (result, d1) =>
        .ok (result, d1 ++ ruleTraceLine index rule value targetValue result)

/-- The rule loop: evaluate each rule in order, threading the trace
accumulator and the two pass counters (`requiredPassed`,
`normalPassed`). -/
def evalRulesLoop (settings : Settings) (reference : JSValue) :
    List Rule → Nat → String → Nat → Nat → Except JSError (String × Nat × Nat)
  | [], _, debugStr, requiredPassed, normalPassed =>
    .ok (debugStr, requiredPassed, normalPassed)
  | rule :: rest, index, debugStr, requiredPassed, normalPassed =>
    match evalRule settings reference index rule debugStr with
    | .error e => .error e
    | .ok (result, d') =>
      let requiredPassed' := if result && rule.required then requiredPassed + 1 else requiredPassed
      let normalPassed' := if result && !rule.required then normalPassed + 1 else normalPassed
      evalRulesLoop settings reference rest (index + 1) d' requiredPassed' normalPassed'

/-- The normal-rules summary trace line. -/
def normalSummaryLine (normalPassed normalTotal : Nat) (satisfy : String) (normalSatisfied : Bool) : String :=
  let outcomeWord := if normalSatisfied then "pass" else "fail"
  s!"Passed {normalPassed} / {normalTotal} (need {satisfy}, {outcomeWord})\n"

/-- The required-rules summary trace line. -/
def requiredSummaryLine (requiredPassed requiredTotal : Nat) (requiredSatisfied : Bool) : String :=
  let outcomeWord := if requiredSatisfied then "pass" else "fail"
  s!"Passed {requiredPassed} / {requiredTotal} required conditions ({outcomeWord})\n"

/-- `checkConditions(settings, reference)` (lines 215–372): `null` when
`settings` is absent or `settings.rules` is not an array; otherwise
evaluate every rule, aggregate under the satisfaction policy
(`satisfy || "ANY"`), extend the trace with the summary lines and
return the outcome with the trace. -/
def checkConditions (settings : Option Settings) (reference : JSValue) :
    Except JSError CheckResult :=
  match settings with
  | none => .ok .null
  | some s =>
    match s.rules with
    | none => .ok .null
    | some rules =>
      match evalRulesLoop s reference rules 0 "" 0 0 with
      | .error e => .error e
      | .ok (debugStr, requiredPassed, normalPassed) =>
        let requiredTotal := rules.foldl (fun total rule => total + (if rule.required then 1 else 0)) 0
        let normalTotal := rules.length - requiredTotal
        let satisfy :=
          match s.satisfy with
          | some v => if v = "" then "ANY" else v
          | none => "ANY"
        let requiredSatisfied := requiredTotal == 0 || requiredTotal == requiredPassed
        let normalSatisfied :=
          normalTotal == 0 ||
            (if satisfy = "ALL" then normalPassed == normalTotal else decide (normalPassed > 0))
        let outcome := normalSatisfied && requiredSatisfied
        let d1 :=
          if normalTotal > 0 then debugStr ++ normalSummaryLine normalPassed normalTotal satisfy normalSatisfied
          else debugStr
        let d2 :=
          if requiredTotal > 0 then d1 ++ requiredSummaryLine requiredPassed requiredTotal requiredSatisfied
          else d1
        let d3 := d2 ++ "Result: " ++ (if outcome then "PASS" else "FAIL")
        .ok (.outcome outcome d3)

/-! ### Spec-side definitions

These definitions follow the specification's words (not the source code)
and are compared with the transcribed code in the refinement theorems
below. -/

/-- Spec-side manual walk: follow the normalized segments key by key,
stopping with `undefined` as soon as an intermediate container is
nullish; an exhausted path returns the value reached. -/
def walkSegs : JSValue → List JSValue → JSValue
  | o, [] => o
  | o, k :: ks => if jsNullish o then .undefined else walkSegs (jsIndex o (toKey k)) ks

/-- Spec-side resolution: a path of length zero yields `undefined`
("no path" is not "root value"); otherwise the manual walk. -/
def walkSpec (o : JSValue) (keys : List JSValue) : JSValue :=
  match keys with
  | [] => .undefined
  | _ => walkSegs o keys

/-- The recognized operator vocabulary. -/
def recognizedOps : List String :=
  ["eq", "ne", "neq", "gt", "gte", "lt", "lte", "startsWith", "endsWith",
   "contains", "present", "empty", "absent", "all", "some", "none", "crosses"]

/-- The boolean a rule evaluates to, independent of any accumulated
trace (`none` when its evaluation throws). -/
def ruleOutcome (settings : Settings) (reference : JSValue) (index : Nat) (rule : Rule) :
    Option Bool :=
  match evalRule settings reference index rule "" with
  | .ok (b, _) => some b
  | .error _ => none

/-- Spec-side count of the rules (from position `index` on) with the
given `required` flag whose evaluation passes. -/
def passedCount (settings : Settings) (reference : JSValue) (req : Bool) :
    Nat → List Rule → Nat
  | _, [] => 0
  | index, rule :: rest =>
    (if rule.required = req ∧ ruleOutcome settings reference index rule = some true then 1 else 0) +
      passedCount settings reference req (index + 1) rest

/-- Spec-side count of required rules. -/
def specRequiredTotal (rules : List Rule) : Nat := (rules.filter (fun r => r.required)).length

/-- The effective satisfaction policy: `satisfy` defaulting to `"ANY"`
when unset (absent or empty). -/
def specSatisfy (s : Settings) : String :=
  match s.satisfy with
  | some v => if v = "" then "ANY" else v
  | none => "ANY"

/-- Spec-side `requiredSatisfied`: no required rules, or all of them
passed. -/
def specRequiredSatisfied (s : Settings) (reference : JSValue) (rules : List Rule) : Bool :=
  specRequiredTotal rules == 0 ||
    passedCount s reference true 0 rules == specRequiredTotal rules

/-- Spec-side `normalSatisfied`: no normal rules, or — under `"ALL"` —
all normal rules passed, otherwise at least one did. -/
def specNormalSatisfied (s : Settings) (reference : JSValue) (rules : List Rule) : Bool :=
  let normalTotal := rules.length - specRequiredTotal rules
  normalTotal == 0 ||
    (if specSatisfy s = "ALL" then passedCount s reference false 0 rules == normalTotal
     else decide (passedCount s reference false 0 rules > 0))

/-! ### State-threaded evaluator

For the frame property ("evaluation only reads the reference") the
evaluator is re-run with the reference threaded explicitly through every
operation that touches it.  A property read returns the value **and the
receiver unchanged** (JavaScript member access never modifies the object
graph), and the callbacks are pure functions (the claim's hypothesis),
so calling them leaves the reference unchanged as well. -/

/-- A read of `path` from `o`: the resolved value and the object graph
after the read (unchanged). -/
def getSt (o : JSValue) (p : PathExpr) : JSValue × JSValue := (get o p, o)

/-- A call of a two-argument callback (`previousValueFn`): its result
and the reference after the call (unchanged, callbacks being pure). -/
def callFn2St (f : JSValue → String → JSValue) (reference : JSValue) (property : String) :
    JSValue × JSValue := (f reference property, reference)

/-- A call of `transformValueFn`: its result and the reference after the
call (unchanged, callbacks being pure). -/
def callFn3St (f : JSValue → JSValue → String → JSValue) (target reference : JSValue)
    (property : String) : JSValue × JSValue := (f target reference property, reference)

/-- `resolveRuleValue` with the reference threaded through its reads. -/
def resolveRuleValueSt (reference : JSValue) (property : String) :
    Except JSError (JSValue × JSValue) :=
  let p1 := getSt reference (.ofStr property)
  if strIncludes property "[]" then
    match jsSplit property "[]" with
    | topPath :: nestedPath0 :: _ =>
      let nestedPath := strDropOne nestedPath0
      let p2 := getSt p1.2 (.ofStr topPath)
      match p2.1 with
      | .arr items =>
        .ok (.arr (items.map (fun item =>
          if nestedPath ≠ "" then (getSt item (.ofStr nestedPath)).1 else item)), p2.2)
      | _ => .error mapTypeError
    | _ => .error substringTypeError
  else .ok (p1.1, p1.2)

/-- `targetValueOf` with the reference threaded through the callback. -/
def targetValueOfSt (settings : Settings) (reference : JSValue) (rule : Rule) :
    JSValue × JSValue :=
  match settings.transformValueFn with
  | some f => callFn3St f rule.value reference rule.property
  | none => (rule.value, reference)

/-- `applyOp` with the reference threaded: only `crosses` touches the
reference (through `previousValueFn`). -/
def applyOpSt (settings : Settings) (reference : JSValue) (index : Nat) (rule : Rule)
    (value targetValue : JSValue) (alt : Option Bool) (debugStr : String) :
    Except JSError ((Bool × String) × JSValue) :=
  if rule.op = "crosses" then
    match settings.previousValueFn with
    | none => .error crossesConfigError
    | some f =>
      let p := callFn2St f reference rule.property
      let r := jsGt targetValue p.1 && jsLe targetValue value
      .ok ((r, crossesTraceLine index rule p.1 value targetValue r), p.2)
  else
    match applyOp settings reference index rule value targetValue alt debugStr with
    | .error e => .error e
    | .ok res => .ok (res, reference)

/-- `evalRule` with the reference threaded through every touch. -/
def evalRuleSt (settings : Settings) (reference : JSValue) (index : Nat) (rule : Rule)
    (debugStr : String) : Except JSError ((Bool × String) × JSValue) :=
  if rule.property = "" then .error (propertyError index rule)
  else
    match resolveRuleValueSt reference rule.property with
    | .error e => .error e
    | .ok (value, ref1) =>
      let pt := targetValueOfSt settings ref1 rule
      let alt := altComparisonOf value pt.1
      match applyOpSt settings pt.2 index rule value pt.1 alt debugStr with
      | .error e => .error e
      | .ok ((result, d1), ref2) =>
        .ok ((result, d1 ++ ruleTraceLine index rule value pt.1 result), ref2)

/-- The rule loop with the reference threaded. -/
def evalRulesLoopSt (settings : Settings) :
    JSValue → List Rule → Nat → String → Nat → Nat →
    Except JSError ((String × Nat × Nat) × JSValue)
  | reference, [], _, debugStr, requiredPassed, normalPassed =>
    .ok ((debugStr, requiredPassed, normalPassed), reference)
  | reference, rule :: rest, index, debugStr, requiredPassed, normalPassed =>
    match evalRuleSt settings reference index rule debugStr with
    | .error e => .error e
    | .ok ((result, d'), ref') =>
      let requiredPassed' := if result && rule.required then requiredPassed + 1 else requiredPassed
      let normalPassed' := if result && !rule.required then normalPassed + 1 else normalPassed
      evalRulesLoopSt settings ref' rest (index + 1) d' requiredPassed' normalPassed'

/-- `checkConditions` with the reference threaded: the result together
with the reference as evaluation leaves it. -/
def checkConditionsSt (settings : Option Settings) (reference : JSValue) :
    Except JSError (CheckResult × JSValue) :=
  match settings with
  | none => .ok (.null, reference)
  | some s =>
    match s.rules with
    | none => .ok (.null, reference)
    | some rules =>
      match evalRulesLoopSt s reference rules 0 "" 0 0 with
      | .error e => .error e
      | .ok ((debugStr, requiredPassed, normalPassed), ref') =>
        let requiredTotal := rules.foldl (fun total rule => total + (if rule.required then 1 else 0)) 0
        let normalTotal := rules.length - requiredTotal
        let satisfy :=
          match s.satisfy with
          | some v => if v = "" then "ANY" else v
          | none => "ANY"
        let requiredSatisfied := requiredTotal == 0 || requiredTotal == requiredPassed
        let normalSatisfied :=
          normalTotal == 0 ||
            (if satisfy = "ALL" then normalPassed == normalTotal else decide (normalPassed > 0))
        let outcome := normalSatisfied && requiredSatisfied
        let d1 :=
          if normalTotal > 0 then debugStr ++ normalSummaryLine normalPassed normalTotal satisfy normalSatisfied
          else debugStr
        let d2 :=
          if requiredTotal > 0 then d1 ++ requiredSummaryLine requiredPassed requiredTotal requiredSatisfied
          else d1
        let d3 := d2 ++ "Result: " ++ (if outcome then "PASS" else "FAIL")
        .ok (.outcome outcome d3, ref')

/-! ### Concrete fixtures used by witnesses and counterexamples -/

/-- A settings object with no callbacks and the given rules. -/
def plainSettings (rules : List Rule) : Settings :=
  { rules := some rules
    satisfy := none
    transformValueFn := none
    previousValueFn := none
    hasLog := false }

/-- `plainSettings` with a `previousValueFn` that always reports `5`. -/
def prevSettings (rules : List Rule) : Settings :=
  { rules := some rules
    satisfy := none
    transformValueFn := none
    previousValueFn := some (fun _ _ => .num 5)
    hasLog := false }

/-- A rule `{ property: "a", op: "present" }`. -/
def presentRuleA : Rule := { property := "a", op := "present", value := .null, required := false }

/-- A rule with an unrecognized op. -/
def badOpRule : Rule := { property := "a", op := "badop", value := .null, required := false }

/-- A reference `{ a: 1 }`. -/
def refA1 : JSValue := .obj [("a", .num 1)]

/-- A rule `{ property: "b", op: "crosses", value: 7 }`. -/
def crossesRule7 : Rule := { property := "b", op := "crosses", value := .num 7, required := false }

/-- A reference `{ b: 10 }`. -/
def refB10 : JSValue := .obj [("b", .num 10)]

/-- A rule `{ property: "a", op: "ne", value: "false" }`. -/
def neRuleA : Rule := { property := "a", op := "ne", value := .str "false", required := false }

/-- A rule `{ property: "a", op: "eq", value: "false" }`. -/
def eqRuleA : Rule := { property := "a", op := "eq", value := .str "false", required := false }

/-- A reference `{ a: true }`. -/
def refATrue : JSValue := .obj [("a", .bool true)]

/-- A wildcard rule whose collection path resolves to a number. -/
def wildcardRule : Rule := { property := "items[].x", op := "present", value := .null, required := false }

/-- A reference `{ items: 5 }` (the collection path is not an array). -/
def refItemsNum : JSValue := .obj [("items", .num 5)]

/-- A rule over a path that is missing from the data. -/
def deepPathRule : Rule := { property := "a.b.c", op := "eq", value := .num 1, required := false }

/-- A rule `{ property: "a", op: "all", value: 1 }`. -/
def allRule1 : Rule := { property := "a", op := "all", value := .num 1, required := false }

/-- A reference `{ a: [0] }`. -/
def refAArr0 : JSValue := .obj [("a", .arr [.num 0])]

/-- A rule `{ property: "a", op: "eq", value: 1 }`. -/
def eqRuleNum : Rule := { property := "a", op := "eq", value := .num 1, required := false }

/-- A reference `{ a: 1, b: 10 }`. -/
def refAB : JSValue := .obj [("a", .num 1), ("b", .num 10)]

/-! ## Helper lemmas -/

/-- The counter-based loop of `baseGet` agrees with the spec-side manual
walk whenever the counters are consistent and the path is non-empty. -/
theorem baseGetAux_eq_walkSegs (ks : List JSValue) :
    ∀ (o : JSValue) (i len : Nat), i + ks.length = len → 0 < len →
      baseGetAux o ks i len = walkSegs o ks := by
  induction ks with
  | nil =>
    intro o i len hlen hpos
    simp only [List.length_nil, Nat.add_zero] at hlen
    subst hlen
    have h0 : i ≠ 0 := Nat.pos_iff_ne_zero.mp hpos
    simp [baseGetAux, walkSegs, h0]
  | cons k ks ih =>
    intro o i len hlen hpos
    simp only [List.length_cons] at hlen
    by_cases hn : jsNullish o
    · have hi : i < len := by omega
      have : (i != 0 && i == len) = false := by
        simp [Nat.ne_of_lt hi]
      simp [baseGetAux, walkSegs, hn, this]
    · simp only [baseGetAux, walkSegs, hn, Bool.false_eq_true, if_false]
      exact ih _ (i + 1) len (by omega) hpos

/-- Computation rule for `Except.map` on a success. -/
theorem mapFst_ok (p : Bool × String) :
    Except.map Prod.fst (Except.ok p : Except JSError (Bool × String)) = Except.ok p.1 := rfl

/-- Computation rule for `Except.map` on an error. -/
theorem mapFst_error (e : JSError) :
    Except.map Prod.fst (Except.error e : Except JSError (Bool × String)) = Except.error e := rfl

/-- The boolean an operator dispatch produces does not depend on the
trace accumulated so far. -/
theorem applyOp_fst_indep (s : Settings) (r : JSValue) (i : Nat) (rule : Rule)
    (v t : JSValue) (alt : Option Bool) (d d' : String) :
    Except.map Prod.fst (applyOp s r i rule v t alt d) =
      Except.map Prod.fst (applyOp s r i rule v t alt d') := by
  cases alt <;> cases hp : s.previousValueFn <;>
    simp only [applyOp, hp] <;>
    simp only [apply_ite (Except.map (Prod.fst : Bool × String → Bool)),
      mapFst_ok, mapFst_error]

/-- The boolean a rule evaluates to does not depend on the trace
accumulated so far. -/
theorem evalRule_fst_indep (s : Settings) (r : JSValue) (i : Nat) (rule : Rule)
    (d d' : String) :
    Except.map Prod.fst (evalRule s r i rule d) =
      Except.map Prod.fst (evalRule s r i rule d') := by
  unfold evalRule
  split_ifs with hp
  · rfl
  · cases hres : resolveRuleValue r rule.property with
    | error e => rfl
    | ok v =>
      have hind := applyOp_fst_indep s r i rule v (targetValueOf s r rule)
        (altComparisonOf v (targetValueOf s r rule)) d d'
      dsimp only
      cases h1 : applyOp s r i rule v (targetValueOf s r rule)
          (altComparisonOf v (targetValueOf s r rule)) d with
      | error e =>
        cases h2 : applyOp s r i rule v (targetValueOf s r rule)
            (altComparisonOf v (targetValueOf s r rule)) d' with
        | error e' =>
          rw [h1, h2] at hind
          simp only [mapFst_error, Except.error.injEq] at hind
          simp [mapFst_error, hind]
        | ok p =>
          rw [h1, h2] at hind
          simp [mapFst_error, mapFst_ok] at hind
      | ok p =>
        cases h2 : applyOp s r i rule v (targetValueOf s r rule)
            (altComparisonOf v (targetValueOf s r rule)) d' with
        | error e' =>
          rw [h1, h2] at hind
          simp [mapFst_error, mapFst_ok] at hind
        | ok p' =>
          rw [h1, h2] at hind
          simp only [mapFst_ok, Except.ok.injEq] at hind
          obtain ⟨b, d1⟩ := p
          obtain ⟨b', d1'⟩ := p'
          simp only at hind
          simp [mapFst_ok, hind]

/-- A successful rule evaluation determines `ruleOutcome`. -/
theorem ruleOutcome_of_evalRule (s : Settings) (r : JSValue) (i : Nat) (rule : Rule)
    (d : String) (b : Bool) (t : String) (h : evalRule s r i rule d = .ok (b, t)) :
    ruleOutcome s r i rule = some b := by
  have hind := evalRule_fst_indep s r i rule "" d
  rw [h, mapFst_ok] at hind
  unfold ruleOutcome
  cases h0 : evalRule s r i rule "" with
  | error e => rw [h0, mapFst_error] at hind; simp at hind
  | ok p =>
    rw [h0, mapFst_ok] at hind
    simp only [Except.ok.injEq] at hind
    obtain ⟨pb, pt⟩ := p
    simp only at hind
    simp [hind]

/-- The loop's pass counters are the spec-side pass counts. -/
theorem evalRulesLoop_counts (s : Settings) (r : JSValue) (rules : List Rule) :
    ∀ (i : Nat) (d : String) (reqP normP : Nat) (d' : String) (R N : Nat),
      evalRulesLoop s r rules i d reqP normP = .ok (d', R, N) →
      R = reqP + passedCount s r true i rules ∧
        N = normP + passedCount s r false i rules := by
  induction rules with
  | nil =>
    intro i d reqP normP d' R N h
    simp only [evalRulesLoop, Except.ok.injEq, Prod.mk.injEq] at h
    simp [passedCount, h.2.1.symm, h.2.2.symm]
  | cons rule rest ih =>
    intro i d reqP normP d' R N h
    simp only [evalRulesLoop] at h
    cases he : evalRule s r i rule d with
    | error e => rw [he] at h; simp at h
    | ok p =>
      obtain ⟨b, d1⟩ := p
      rw [he] at h
      simp only at h
      have ho := ruleOutcome_of_evalRule s r i rule d b d1 he
      have hrec := ih (i + 1) d1 _ _ d' R N h
      rw [passedCount, passedCount]
      cases b <;> cases hreq : rule.required <;>
        simp [hreq, ho] at hrec ⊢ <;> omega

/-- The source's `requiredTotal` fold counts the required rules. -/
theorem foldl_requiredTotal (rules : List Rule) :
    ∀ n : Nat,
      rules.foldl (fun total rule => total + (if rule.required then 1 else 0)) n =
        n + specRequiredTotal rules := by
  induction rules with
  | nil => intro n; simp [specRequiredTotal]
  | cons rule rest ih =>
    intro n
    simp only [List.foldl_cons, ih, specRequiredTotal, List.filter]
    cases hreq : rule.required <;> (simp [specRequiredTotal]; try omega)

/-- Without the wildcard marker, value resolution is plain `get` and
never errors. -/
theorem resolveRuleValue_nonwildcard (reference : JSValue) (property : String)
    (h : strIncludes property "[]" = false) :
    resolveRuleValue reference property = .ok (get reference (.ofStr property)) := by
  unfold resolveRuleValue
  rw [h]
  rfl

/-! ## Claim theorems -/

/-- C5: for every container value `o` and every path `p`, `get o p`
returns exactly what a manual key-by-key walk of `p`'s normalized
segments returns — `undefined` as soon as an intermediate container is
nullish before the keys are exhausted — and a path of length zero also
yields `undefined` rather than the root value. -/
theorem resolve_eq_manual_walk :
    (∀ (o : JSValue) (p : PathExpr), get o p = walkSpec o (castPath p o)) ∧
    (∀ (o : JSValue) (p : PathExpr), castPath p o = [] → get o p = JSValue.undefined) := by
  have main : ∀ (o : JSValue) (p : PathExpr), get o p = walkSpec o (castPath p o) := by
    intro o p
    unfold get baseGet
    cases hkeys : castPath p o with
    | nil =>
      by_cases hn : jsNullish o <;> simp [hn, walkSpec, baseGetAux, hkeys]
    | cons k ks =>
      by_cases hn : jsNullish o
      · simp [hn, walkSpec, walkSegs, hkeys]
      · simp only [hn, Bool.false_eq_true, if_false, walkSpec, hkeys]
        exact baseGetAux_eq_walkSegs (k :: ks) o 0 (k :: ks).length (by omega) (by simp)
  refine ⟨main, fun o p h => ?_⟩
  rw [main o p, h]
  rfl

/-- C5 witness: the pre-split empty path on a non-null root resolves to
`undefined`, matching the spec-side walk. -/
theorem resolve_eq_manual_walk_witness :
    castPath (.ofList []) (JSValue.num 5) = [] ∧
    get (JSValue.num 5) (.ofList []) = JSValue.undefined := by
  exact ⟨rfl, resolve_eq_manual_walk.2 (JSValue.num 5) (.ofList []) rfl⟩

/-- C6: `checkConditions` returns `null` exactly when `settings` is
absent or `settings.rules` is not an array; by the shape of
`CheckResult`, `null` is the only non-boolean, non-error result. -/
theorem null_iff_no_rules :
    ∀ (settings : Option Settings) (reference : JSValue),
      checkConditions settings reference = .ok .null ↔
        settings = none ∨ ∃ s, settings = some s ∧ s.rules = none := by
  intro settings reference
  cases settings with
  | none => simp [checkConditions]
  | some s =>
    cases hr : s.rules with
    | none => simp [checkConditions, hr]
    | some rules =>
      simp only [checkConditions, hr]
      cases hloop : evalRulesLoop s reference rules 0 "" 0 0 with
      | error e => simp [hr]
      | ok v => simp [hr]

/-- `Nat.beq` is symmetric. -/
theorem natBeq_comm (a b : Nat) : (a == b) = (b == a) := by
  by_cases h : a = b
  · simp [h]
  · have h' : ¬b = a := fun hh => h hh.symm
    simp [h, h']

/-- C1: for a settings object with a rules array, `checkConditions`
returns `normalSatisfied && requiredSatisfied`, where `requiredSatisfied`
is true iff `requiredTotal == 0` or `requiredPassed == requiredTotal`,
and `normalSatisfied` is true iff `normalTotal == 0` or — under the
`"ALL"` policy — `normalPassed == normalTotal`, otherwise
`normalPassed > 0`, with `satisfy` defaulting to `"ANY"` when unset; in
particular an empty rules array yields `true` under any policy. -/
theorem aggregation_formula :
    (∀ (s : Settings) (rules : List Rule) (reference : JSValue) (b : Bool) (tr : String),
        s.rules = some rules →
        checkConditions (some s) reference = .ok (.outcome b tr) →
        b = (specNormalSatisfied s reference rules && specRequiredSatisfied s reference rules)) ∧
    (∀ (s : Settings) (reference : JSValue),
        s.rules = some [] →
        checkConditions (some s) reference = .ok (.outcome true "Result: PASS")) := by
  constructor
  · intro s rules reference b tr hr h
    simp only [checkConditions, hr] at h
    cases hloop : evalRulesLoop s reference rules 0 "" 0 0 with
    | error e => rw [hloop] at h; simp at h
    | ok trip =>
      obtain ⟨d, R, N⟩ := trip
      rw [hloop] at h
      simp only [Except.ok.injEq, CheckResult.outcome.injEq] at h
      obtain ⟨hc1, hc2⟩ := evalRulesLoop_counts s reference rules 0 "" 0 0 d R N hloop
      rw [← h.1, foldl_requiredTotal rules 0, hc1, hc2]
      simp only [Nat.zero_add]
      rw [natBeq_comm (specRequiredTotal rules) (passedCount s reference true 0 rules)]
      rfl
  · intro s reference hr
    simp only [checkConditions, hr, evalRulesLoop]
    rfl

/-- C1 witness: a one-rule set under the default policy evaluates to the
aggregation formula's value, and the empty rule set passes. -/
theorem aggregation_formula_witness :
    ((true : Bool) =
      (specNormalSatisfied (plainSettings [presentRuleA]) refA1 [presentRuleA] &&
        specRequiredSatisfied (plainSettings [presentRuleA]) refA1 [presentRuleA])) ∧
    checkConditions (some (plainSettings [])) refA1 = .ok (.outcome true "Result: PASS") :=
  ⟨aggregation_formula.1 (plainSettings [presentRuleA]) [presentRuleA] refA1 true
      "(0) a (1) is present ? true\nPassed 1 / 1 (need ANY, pass)\nResult: PASS" rfl rfl,
    aggregation_formula.2 (plainSettings []) refA1 rfl⟩

/-- C4: a rule with op `crosses` evaluates, when `previousValueFn` is
supplied, to `targetValue > lastValue && targetValue <= value` with
`lastValue = previousValueFn(reference, rule.property)`; without
`previousValueFn` it raises the configuration error. -/
theorem crosses_semantics :
    (∀ (s : Settings) (reference : JSValue) (i : Nat) (rule : Rule) (d : String)
        (f : JSValue → String → JSValue) (v : JSValue),
        rule.op = "crosses" → s.previousValueFn = some f → rule.property ≠ "" →
        resolveRuleValue reference rule.property = .ok v →
        ∃ t, evalRule s reference i rule d =
          .ok (jsGt (targetValueOf s reference rule) (f reference rule.property) &&
                jsLe (targetValueOf s reference rule) v, t)) ∧
    (∀ (s : Settings) (reference : JSValue) (i : Nat) (rule : Rule) (d : String) (v : JSValue),
        rule.op = "crosses" → s.previousValueFn = none → rule.property ≠ "" →
        resolveRuleValue reference rule.property = .ok v →
        evalRule s reference i rule d = .error crossesConfigError) := by
  constructor
  · intro s reference i rule d f v hop hprev hp hres
    unfold evalRule
    rw [if_neg hp, hres]
    dsimp only
    simp only [applyOp, hop, hprev]
    exact ⟨_, rfl⟩
  · intro s reference i rule d v hop hprev hp hres
    unfold evalRule
    rw [if_neg hp, hres]
    dsimp only
    simp only [applyOp, hop, hprev]
    rfl

/-- C4 witness: previous value 5, current value 10, target 7 passes, and
without `previousValueFn` the configuration error is raised. -/
theorem crosses_semantics_witness :
    (∃ t, evalRule (prevSettings [crossesRule7]) refB10 0 crossesRule7 "" = .ok (true, t)) ∧
    evalRule (plainSettings [crossesRule7]) refB10 0 crossesRule7 "" = .error crossesConfigError := by
  constructor
  · exact crosses_semantics.1 (prevSettings [crossesRule7]) refB10 0 crossesRule7 ""
      (fun _ _ => .num 5) (.num 10) rfl rfl (by decide) rfl
  · exact crosses_semantics.2 (plainSettings [crossesRule7]) refB10 0 crossesRule7 ""
      (.num 10) rfl rfl (by decide) rfl

/-- C10: for the same resolved value and (post-transform) target value,
the boolean computed for op `ne` (or its alias `neq`) is exactly the
negation of the boolean computed for op `eq`, including when the
boolean/string alternate reading is in play. -/
theorem ne_negates_eq :
    ∀ (s : Settings) (reference : JSValue) (i : Nat) (rule₁ rule₂ : Rule) (d₁ d₂ : String)
      (b₁ b₂ : Bool) (t₁ t₂ : String),
      (rule₁.op = "ne" ∨ rule₁.op = "neq") → rule₂.op = "eq" →
      rule₁.property = rule₂.property → rule₁.value = rule₂.value →
      evalRule s reference i rule₁ d₁ = .ok (b₁, t₁) →
      evalRule s reference i rule₂ d₂ = .ok (b₂, t₂) →
      b₁ = !b₂ := by
  intro s reference i rule₁ rule₂ d₁ d₂ b₁ b₂ t₁ t₂ hop1 hop2 hprop hval h₁ h₂
  unfold evalRule at h₁ h₂
  rw [hprop] at h₁
  by_cases hp : rule₂.property = ""
  · rw [if_pos hp] at h₂
    simp at h₂
  · rw [if_neg hp] at h₁ h₂
    cases hres : resolveRuleValue reference rule₂.property with
    | error e =>
      rw [hres] at h₂
      simp at h₂
    | ok v =>
      rw [hres] at h₁ h₂
      dsimp only at h₁ h₂
      have htv : targetValueOf s reference rule₁ = targetValueOf s reference rule₂ := by
        unfold targetValueOf
        rw [hprop, hval]
      rw [htv] at h₁
      cases halt : altComparisonOf v (targetValueOf s reference rule₂) with
      | none =>
        rcases hop1 with hop1 | hop1 <;>
          simp only [applyOp, hop1, halt, String.reduceEq, reduceIte, true_or, false_or, or_true, or_false, if_true, if_false, Except.ok.injEq, Prod.mk.injEq] at h₁ <;>
          simp only [applyOp, hop2, halt, String.reduceEq, reduceIte, true_or, false_or, or_true, or_false, if_true, if_false, Except.ok.injEq, Prod.mk.injEq] at h₂ <;>
          rw [← h₁.1, ← h₂.1]
      | some a =>
        rcases hop1 with hop1 | hop1 <;>
          simp only [applyOp, hop1, halt, String.reduceEq, reduceIte, true_or, false_or, or_true, or_false, if_true, if_false, Except.ok.injEq, Prod.mk.injEq] at h₁ <;>
          simp only [applyOp, hop2, halt, String.reduceEq, reduceIte, true_or, false_or, or_true, or_false, if_true, if_false, Except.ok.injEq, Prod.mk.injEq] at h₂ <;>
          rw [← h₁.1, ← h₂.1] <;>
          cases looseEq v (targetValueOf s reference rule₂) <;>
          cases looseEq v (.bool a) <;> rfl

/-- C10 witness: with the alternate reading in play (resolved value
`true`, target `"false"`), `ne` yields `true`, `eq` yields `false`, and
the former is the latter's negation. -/
theorem ne_negates_eq_witness :
    evalRule (plainSettings [neRuleA]) refATrue 0 neRuleA "" =
      .ok (true, "(0) a (true)  ne false? true\n") ∧
    evalRule (plainSettings [eqRuleA]) refATrue 0 eqRuleA "" =
      .ok (false, "(0) a (true)  eq false? false\n") ∧
    (true : Bool) = !false :=
  ⟨rfl, rfl,
    ne_negates_eq (plainSettings [neRuleA]) refATrue 0 neRuleA eqRuleA "" "" true false
      "(0) a (true)  ne false? true\n" "(0) a (true)  eq false? false\n"
      (Or.inl rfl) rfl rfl rfl rfl rfl⟩

/-- C2 counterexample: a wildcard rule whose collection path resolves to
a number makes `checkConditions` throw a `TypeError` — a data-shape
error, not a rule-authoring error (no `rule` attached, name
`"TypeError"`) — refuting "evaluation never throws" for malformed data. -/
theorem wildcard_nonarray_throws :
    checkConditions (some (plainSettings [wildcardRule])) refItemsNum = .error mapTypeError ∧
    mapTypeError.name = "TypeError" ∧ mapTypeError.rule = none :=
  ⟨rfl, rfl, rfl⟩

/-- C2 (amended): for a rule whose property does not contain the
wildcard marker, path resolution and rule evaluation never throw for
malformed or missing paths in the data — resolution is total and yields
`undefined`-style values — and a recognized non-`crosses` op always
evaluates to a boolean. -/
theorem nonwildcard_never_throws :
    (∀ (reference : JSValue) (property : String),
        strIncludes property "[]" = false →
        resolveRuleValue reference property = .ok (get reference (.ofStr property))) ∧
    (∀ (s : Settings) (reference : JSValue) (i : Nat) (rule : Rule) (d : String),
        strIncludes rule.property "[]" = false →
        rule.property ≠ "" →
        rule.op ∈ recognizedOps → rule.op ≠ "crosses" →
        ∃ b t, evalRule s reference i rule d = .ok (b, t)) := by
  refine ⟨resolveRuleValue_nonwildcard, ?_⟩
  intro s reference i rule d hw hp hmem hncross
  have hmem' := by simpa [recognizedOps] using hmem
  unfold evalRule
  rw [if_neg hp, resolveRuleValue_nonwildcard reference rule.property hw]
  dsimp only
  rcases hmem' with h|h|h|h|h|h|h|h|h|h|h|h|h|h|h|h|h
  all_goals first
    | exact absurd h hncross
    | (simp only [applyOp, h, String.reduceEq, reduceIte, true_or, false_or, or_true,
        or_false, if_true, if_false]
       exact ⟨_, _, rfl⟩)

/-- C2 witness for the amended claim: resolution of the missing path
`"a.b.c"` in `{ a: 1 }` yields `undefined` without throwing, and the
`eq` rule over it evaluates to a boolean. -/
theorem nonwildcard_never_throws_witness :
    resolveRuleValue refA1 "a.b.c" = .ok (get refA1 (.ofStr "a.b.c")) ∧
    get refA1 (.ofStr "a.b.c") = JSValue.undefined ∧
    (∃ b t, evalRule (plainSettings [deepPathRule]) refA1 0 deepPathRule "" = .ok (b, t)) :=
  ⟨nonwildcard_never_throws.1 refA1 "a.b.c" rfl, rfl,
    nonwildcard_never_throws.2 (plainSettings [deepPathRule]) refA1 0 deepPathRule ""
      rfl (by decide) (by decide) (by decide)⟩

/-- C3: the `all` operator evaluated over `{ a: [0] }` against target `1`
returns `true` even though the element `0` is not strictly equal to `1`:
`!value.find(...)` mistakes a falsy non-matching element for "no
non-matching element found", contradicting the operator's own comment. -/
theorem all_falsy_element_bug :
    checkConditions (some (plainSettings [allRule1])) refAArr0 =
      .ok (.outcome true "(0) a (0)  all 1? true\nPassed 1 / 1 (need ANY, pass)\nResult: PASS") ∧
    jsStrictEq (.num 0) (.num 1) = false :=
  ⟨rfl, rfl⟩

/-- C7 counterexample: the unknown-op authoring error is identical
whether the offending rule sits at index 0 or at index 1 (its message
carries the op, not the index), so the error does not identify the
rule's index. -/
theorem unknownop_error_lacks_index :
    checkConditions (some (plainSettings [badOpRule])) refA1 = .error (unknownOpError badOpRule) ∧
    checkConditions (some (plainSettings [presentRuleA, badOpRule])) refA1 =
      .error (unknownOpError badOpRule) ∧
    (unknownOpError badOpRule).message = "Unknown comparison for rule (badop)" :=
  ⟨rfl, rfl, rfl⟩

/-- C7 (amended): a rule with an empty property fails evaluation with an
authoring error that identifies the rule's index and carries the rule
object; a rule with an unrecognized op (once its value resolves) fails
with an authoring error that identifies the op and carries the rule
object — but not the index. -/
theorem authoring_errors :
    (∀ (s : Settings) (reference : JSValue) (i : Nat) (rule : Rule) (d : String),
        rule.property = "" →
        evalRule s reference i rule d = .error (propertyError i rule) ∧
        (propertyError i rule).message = "Property not specified for rule " ++ toString i ∧
        (propertyError i rule).rule = some rule) ∧
    (∀ (s : Settings) (reference : JSValue) (i : Nat) (rule : Rule) (d : String) (v : JSValue),
        rule.property ≠ "" → rule.op ∉ recognizedOps →
        resolveRuleValue reference rule.property = .ok v →
        evalRule s reference i rule d = .error (unknownOpError rule) ∧
        (unknownOpError rule).message = "Unknown comparison for rule (" ++ rule.op ++ ")" ∧
        (unknownOpError rule).rule = some rule) := by
  constructor
  · intro s reference i rule d hp
    unfold evalRule
    rw [if_pos hp]
    exact ⟨rfl, rfl, rfl⟩
  · intro s reference i rule d v hp hmem hres
    obtain ⟨h1, h2, h3, h4, h5, h6, h7, h8, h9, h10, h11, h12, h13, h14, h15, h16, h17⟩ :=
      by simpa [recognizedOps, not_or] using hmem
    refine ⟨?_, rfl, rfl⟩
    unfold evalRule
    rw [if_neg hp, hres]
    dsimp only
    unfold applyOp
    rw [if_neg h1, if_neg (not_or.mpr ⟨h2, h3⟩), if_neg h4, if_neg h5, if_neg h6,
      if_neg h7, if_neg h8, if_neg h9, if_neg h10, if_neg h11,
      if_neg (not_or.mpr ⟨h12, h13⟩), if_neg h14, if_neg h15, if_neg h16, if_neg h17]

/-- C7 witness for the amended claim: the two authoring errors at
concrete inputs. -/
theorem authoring_errors_witness :
    (evalRule (plainSettings []) refA1 3 { property := "", op := "present", value := .null, required := false } "" =
      .error (propertyError 3 { property := "", op := "present", value := .null, required := false })) ∧
    evalRule (plainSettings [badOpRule]) refA1 0 badOpRule "" = .error (unknownOpError badOpRule) :=
  ⟨(authoring_errors.1 (plainSettings []) refA1 3
      { property := "", op := "present", value := .null, required := false } "" rfl).1,
    (authoring_errors.2 (plainSettings [badOpRule]) refA1 0 badOpRule "" (.num 1)
      (by decide) (by decide) rfl).1⟩

/-- C8: the `crosses` branch assigns (`debugStr = ...`) instead of
appending, so a `crosses` rule discards the trace lines of all earlier
rules: here rule 0 evaluates first and produces its trace line, yet the
final trace delivered to the log does not contain it. -/
theorem crosses_wipes_trace :
    checkConditions (some (prevSettings [eqRuleNum, crossesRule7])) refAB =
      .ok (.outcome true
        "(1) b was 5 and became 10. crossed 7? true\n(1) b (10)  crosses 7? true\nPassed 2 / 2 (need ANY, pass)\nResult: PASS") ∧
    evalRule (prevSettings [eqRuleNum, crossesRule7]) refAB 0 eqRuleNum "" =
      .ok (true, "(0) a (1)  eq 1? true\n") ∧
    strIncludes
      "(1) b was 5 and became 10. crossed 7? true\n(1) b (10)  crosses 7? true\nPassed 2 / 2 (need ANY, pass)\nResult: PASS"
      "(0) a" = false :=
  ⟨rfl, rfl, rfl⟩

/-- The threaded value resolution returns the reference unchanged and
agrees with the plain resolution. -/
theorem resolveRuleValueSt_spec (reference : JSValue) (property : String) :
    resolveRuleValueSt reference property =
      Except.map (fun v => (v, reference)) (resolveRuleValue reference property) := by
  unfold resolveRuleValueSt resolveRuleValue getSt
  by_cases hinc : strIncludes property "[]" = true
  · rw [if_pos hinc, if_pos hinc]
    cases hsplit : jsSplit property "[]" with
    | nil => rfl
    | cons top rest =>
      cases rest with
      | nil => rfl
      | cons nested rest2 =>
        dsimp only
        cases hget : get reference (.ofStr top) <;> rfl
  · rw [if_neg hinc, if_neg hinc]
    rfl

/-- The threaded target-value computation returns the reference
unchanged. -/
theorem targetValueOfSt_spec (s : Settings) (reference : JSValue) (rule : Rule) :
    targetValueOfSt s reference rule = (targetValueOf s reference rule, reference) := by
  unfold targetValueOfSt targetValueOf callFn3St
  cases s.transformValueFn <;> rfl

/-- The threaded operator dispatch returns the reference unchanged and
agrees with the plain dispatch. -/
theorem applyOpSt_spec (s : Settings) (reference : JSValue) (i : Nat) (rule : Rule)
    (v t : JSValue) (alt : Option Bool) (d : String) :
    applyOpSt s reference i rule v t alt d =
      Except.map (fun res => (res, reference)) (applyOp s reference i rule v t alt d) := by
  unfold applyOpSt callFn2St
  by_cases hc : rule.op = "crosses"
  · simp only [applyOp, hc, String.reduceEq, reduceIte, true_or, false_or, or_true,
      or_false, if_true, if_false]
    cases hp : s.previousValueFn <;> rfl
  · rw [if_neg hc]
    cases happ : applyOp s reference i rule v t alt d <;> rfl

/-- The threaded rule evaluation returns the reference unchanged and
agrees with the plain evaluation. -/
theorem evalRuleSt_spec (s : Settings) (reference : JSValue) (i : Nat) (rule : Rule)
    (d : String) :
    evalRuleSt s reference i rule d =
      Except.map (fun res => (res, reference)) (evalRule s reference i rule d) := by
  unfold evalRuleSt evalRule
  by_cases hp : rule.property = ""
  · rw [if_pos hp, if_pos hp]
    rfl
  · rw [if_neg hp, if_neg hp, resolveRuleValueSt_spec]
    cases hres : resolveRuleValue reference rule.property with
    | error e => rfl
    | ok v =>
      dsimp only [Except.map]
      rw [targetValueOfSt_spec]
      dsimp only
      rw [applyOpSt_spec]
      cases happ : applyOp s reference i rule v (targetValueOf s reference rule)
        (altComparisonOf v (targetValueOf s reference rule)) d <;> rfl

/-- The threaded rule loop returns the reference unchanged and agrees
with the plain loop. -/
theorem evalRulesLoopSt_spec (s : Settings) (reference : JSValue) (rules : List Rule) :
    ∀ (i : Nat) (d : String) (a b : Nat),
      evalRulesLoopSt s reference rules i d a b =
        Except.map (fun x => (x, reference)) (evalRulesLoop s reference rules i d a b) := by
  induction rules with
  | nil => intro i d a b; rfl
  | cons rule rest ih =>
    intro i d a b
    unfold evalRulesLoopSt evalRulesLoop
    rw [evalRuleSt_spec]
    cases he : evalRule s reference i rule d with
    | error e => rfl
    | ok p =>
      obtain ⟨result, d'⟩ := p
      dsimp only [Except.map]
      exact ih (i + 1) d' _ _

/-- C9: evaluation only reads the nested structure — running
`checkConditions` with the reference threaded explicitly through every
property read and (pure, per the claim's hypothesis on the callbacks)
callback call produces the same result and returns the reference
entirely unchanged. -/
theorem evaluation_preserves_reference :
    ∀ (settings : Option Settings) (reference : JSValue),
      checkConditionsSt settings reference =
        Except.map (fun res => (res, reference)) (checkConditions settings reference) := by
  intro settings reference
  cases settings with
  | none => rfl
  | some s =>
    cases hr : s.rules with
    | none =>
      simp only [checkConditionsSt, checkConditions, hr]
      rfl
    | some rules =>
      simp only [checkConditionsSt, checkConditions, hr]
      rw [evalRulesLoopSt_spec]
      cases hloop : evalRulesLoop s reference rules 0 "" 0 0 with
      | error e => rfl
      | ok trip =>
        obtain ⟨d, R, N⟩ := trip
        rfl

end JsonConditions
